import Mathlib

/-!
Shallow embedding of the task_logger repository's logging pipeline and task
repository, translated from the Go sources:
  - the asynchronous logger (`asyncLogger`, `NewAsyncLogger`, `run`, the leveled
    emit methods, `With`, `log`, `appendValue`, `ParseLevel`, `generateTraceFlags`),
  - `TaskRepository.GetAll` together with the HTTP query-parameter parsing
    (`parseIntQueryParam`, `strconv.Atoi`).

Machine integers are modelled as `Int`/`Nat`; byte strings as `String`
(queue items and the batch buffer are byte slices in Go, and the size-triggered
flush compares byte length, modelled with `String.utf8ByteSize`).  The
concurrent channel of capacity k is modelled as a FIFO list on which a
non-blocking send succeeds exactly when fewer than k items are pending.
-/

namespace TaskLogger

/-! ### Severity levels (`LogLevel` constants, part_001 lines 34-44) -/

def debugLevel : Int := -1

def infoLevel : Int := 0

def warnLevel : Int := 1

def errorLevel : Int := 2

def dpanicLevel : Int := 3

def panicLevel : Int := 4

def fatalLevel : Int := 5

/-! ### Dynamic field values and `appendValue` (part_001 lines 252-273)

Go's `interface{}` field values are modelled by the constructors the
`appendValue` type switch distinguishes.  Binary floating point is outside the
embedding, so `VFloat64` carries the decimal text `strconv.FormatFloat`
produces for it; likewise `VOther` carries the `fmt.Sprintf("%v", ...)`
rendering of a value of any type outside the switch. -/

inductive GoValue where
  | VString (s : String)
  | VInt (n : Int)
  | VInt64 (n : Int)
  | VUint (n : Nat)
  | VUint64 (n : Nat)
  | VFloat64 (rendered : String)
  | VBool (b : Bool)
  | VError (msg : String)
  | VOther (rendered : String)
  deriving DecidableEq, Repr

/-- `appendValue` (part_001 lines 252-273): how one field value is rendered. -/
def renderValue : GoValue → String
  | .VString s => s
  | .VInt n => toString n
  | .VInt64 n => toString n
  | .VUint n => toString n
  | .VUint64 n => toString n
  | .VFloat64 rendered => rendered
  | .VBool b => if b then "true" else "false"
  | .VError msg => msg
  | .VOther rendered => rendered

/-- One iteration of the field loop in `log` (part_001 lines 225-236) after the
leading space: a string key is rendered as `key=` followed by the value when
one exists; a non-string key is skipped (`continue`), rendering nothing. -/
def keyPart (k : GoValue) (v : Option GoValue) : String :=
  match k with
  | .VString s => s ++ "=" ++ (match v with | some w => renderValue w | none => "")
  | _ => ""

/-- The field loop of `log` (part_001 lines 224-237): fields are consumed two
at a time (`i += 2`); every iteration first writes a space, then the key/value
pair via `keyPart`.  An odd trailing element is reached with `i+1 >= len`. -/
def renderFields : List GoValue → String
  | [] => ""
  | [k] => " " ++ keyPart k none
  | k :: v :: rest => " " ++ keyPart k (some v) ++ renderFields rest

/-- The full line built by `log` (part_001 lines 215-238):
timestamp, level, message, rendered fields, newline.  (The Go guard
`if len(allFields) > 0` is a no-op since the loop renders nothing on an
empty list.) -/
def encodeLine (ts level msg : String) (allFields : List GoValue) : String :=
  ts ++ " " ++ level ++ " " ++ msg ++ renderFields allFields ++ "\n"

/-! ### Logger configuration and construction (part_001 lines 51-114) -/

structure Config where
  level : Int
  isProduction : Bool
  deriving DecidableEq, Repr

/-- The producer-visible part of `asyncLogger`: configuration, the shared
output writer (modelled as an opaque identifier, since the shallow copy in
`With` shares the `*log.Logger` pointer), the buffer size, the flush interval
in nanoseconds, and the accumulated context fields. -/
structure AsyncLogger where
  cfg : Config
  writerId : Nat
  bufferSize : Int
  flushInterval : Int
  contextFields : List GoValue
  deriving DecidableEq, Repr

inductive LoggerOption where
  | withBufferSize (size : Int)
  | withFlushInterval (interval : Int)
  deriving DecidableEq, Repr

/-- `WithBufferSize` / `WithFlushInterval` (part_001 lines 80-94): the option
mutates the field only when its argument is positive. -/
def applyOption (l : AsyncLogger) : LoggerOption → AsyncLogger
  | .withBufferSize size => if size > 0 then { l with bufferSize := size } else l
  | .withFlushInterval interval =>
      if interval > 0 then { l with flushInterval := interval } else l

/-- `NewAsyncLogger` (part_001 lines 96-114): defaults `bufferSize = 4096`,
`flushInterval = 100ms`, then the options are applied in order. -/
def newAsyncLogger (cfg : Config) (opts : List LoggerOption) : AsyncLogger :=
  opts.foldl applyOption
    { cfg := cfg, writerId := 0, bufferSize := 4096, flushInterval := 100000000,
      contextFields := [] }

/-- The capacity of the log channel: `make(chan []byte, l.bufferSize+1)`
(part_001 line 108). -/
def chanCap (l : AsyncLogger) : Int := l.bufferSize + 1

/-! ### Writer-side state and the enqueue/worker steps -/

/-- The mutable state of one writer pipeline: the channel contents (FIFO), the
batch buffer owned by the worker, the sequence of `Write` calls that reached
the sink, and the diagnostics printed to stderr.  `accepted` is a ghost field
recording, in order, every line whose channel send succeeded; it has no Go
counterpart and exists only to state drain completeness. -/
structure WriterState where
  queue : List String
  batch : String
  sink : List String
  stderrLines : List String
  accepted : List String
  deriving DecidableEq, Repr

def initWriter : WriterState :=
  { queue := [], batch := "", sink := [], stderrLines := [], accepted := [] }

/-- The stderr diagnostic printed on overflow (part_001 line 243); `%s` is the
full encoded line (itself newline-terminated) and `Fprintf`'s format string
appends one more newline. -/
def dropDiagnostic (line : String) : String :=
  "WARNING: Logger channel is full. Log message dropped: " ++ line ++ "\n"

/-- The `select`/`default` send at the end of `log` (part_001 lines 240-244):
a non-blocking send that succeeds exactly when the channel holds fewer than
`chanCap` items, and otherwise drops the line with a stderr diagnostic. -/
def enqueueRaw (l : AsyncLogger) (st : WriterState) (line : String) : WriterState :=
  if (st.queue.length : Int) < chanCap l then
    { st with queue := st.queue ++ [line], accepted := st.accepted ++ [line] }
  else
    { st with stderrLines := st.stderrLines ++ [dropDiagnostic line] }

/-- `asyncLogger.log` (part_001 lines 214-246): build the line from the context
fields followed by the call-site fields, then attempt the non-blocking send. -/
def logM (l : AsyncLogger) (st : WriterState) (level ts msg : String)
    (fields : List GoValue) : WriterState :=
  enqueueRaw l st (encodeLine ts level msg (l.contextFields ++ fields))

/-- `asyncLogger.With` (part_001 lines 206-212): shallow copy of the logger
with a fresh copy of the context-field list extended by the new fields. -/
def withFields (l : AsyncLogger) (fields : List GoValue) : AsyncLogger :=
  { l with contextFields := l.contextFields ++ fields }

/-- `allFields := append(l.contextFields, fields...)` in `log` (line 222). -/
def allFieldsOf (l : AsyncLogger) (fields : List GoValue) : List GoValue :=
  l.contextFields ++ fields

/-! ### Leveled emit methods (part_001 lines 158-204) -/

def debugM (l : AsyncLogger) (st : WriterState) (ts msg : String)
    (fields : List GoValue) : WriterState :=
  if l.cfg.level ≤ debugLevel then logM l st "DEBUG" ts msg fields else st

def infoM (l : AsyncLogger) (st : WriterState) (ts msg : String)
    (fields : List GoValue) : WriterState :=
  if l.cfg.level ≤ infoLevel then logM l st "INFO" ts msg fields else st

def warnM (l : AsyncLogger) (st : WriterState) (ts msg : String)
    (fields : List GoValue) : WriterState :=
  if l.cfg.level ≤ warnLevel then logM l st "WARN" ts msg fields else st

def errorM (l : AsyncLogger) (st : WriterState) (ts msg : String)
    (fields : List GoValue) : WriterState :=
  if l.cfg.level ≤ errorLevel then logM l st "ERROR" ts msg fields else st

/-- Outcome of an emit that can unwind: the resulting writer state and the
payload of the `panic` call when one is raised. -/
structure EmitOutcome where
  state : WriterState
  panics : Option String
  deriving DecidableEq, Repr

/-- `asyncLogger.DPanic` (part_001 lines 182-189): inside the level guard it
logs and, only outside production mode, panics with the message. -/
def dpanicM (l : AsyncLogger) (st : WriterState) (ts msg : String)
    (fields : List GoValue) : EmitOutcome :=
  if l.cfg.level ≤ dpanicLevel then
    { state := logM l st "DPANIC" ts msg fields,
      panics := if l.cfg.isProduction then none else some msg }
  else
    { state := st, panics := none }

/-- `asyncLogger.Panic` (part_001 lines 191-197): the log call and the
`panic(msg)` both sit inside the `l.cfg.Level <= PanicLevel` guard. -/
def panicM (l : AsyncLogger) (st : WriterState) (ts msg : String)
    (fields : List GoValue) : EmitOutcome :=
  if l.cfg.level ≤ panicLevel then
    { state := logM l st "PANIC" ts msg fields, panics := some msg }
  else
    { state := st, panics := none }

/-- `asyncLogger.Fatal` (part_001 lines 199-204): the Boolean records whether
`os.Exit(1)` is reached. -/
def fatalM (l : AsyncLogger) (st : WriterState) (ts msg : String)
    (fields : List GoValue) : WriterState × Bool :=
  if l.cfg.level ≤ fatalLevel then (logM l st "FATAL" ts msg fields, true)
  else (st, false)

/-! ### The worker loop `asyncLogger.run` (part_001 lines 116-156) -/

/-- The worker's `flush` closure (lines 122-127): write the batch to the sink
when it is non-empty, then reset it. -/
def flushB (st : WriterState) : WriterState :=
  if st.batch = "" then st
  else { st with sink := st.sink ++ [st.batch], batch := "" }

/-- One `case msg := <-l.logChan` step of the worker loop (lines 145-153):
receive the oldest queued line, append it to the batch, and flush early when
the batch byte length reaches `bufferSize`. -/
def deliverOne (l : AsyncLogger) (st : WriterState) : WriterState :=
  match st.queue with
  | [] => st
  | msg :: rest =>
      let st1 := { st with queue := rest, batch := st.batch ++ msg }
      if (st1.batch.utf8ByteSize : Int) ≥ l.bufferSize then flushB st1 else st1

/-- The drain loop on cancellation (lines 131-140): receive until the channel
is empty, appending each message to the batch, then flush once and return. -/
def drainGo : List String → WriterState → WriterState
  | [], st => flushB st
  | msg :: rest, st => drainGo rest { st with batch := st.batch ++ msg }

def drainAll (st : WriterState) : WriterState :=
  drainGo st.queue { st with queue := [] }

/-- The events interleaved on one writer before cancellation: a producer's
enqueue attempt, a ticker tick (lines 142-143), or the worker consuming one
queued line. -/
inductive WriterEvent where
  | enq (line : String)
  | tick
  | deliver
  deriving DecidableEq, Repr

def stepEvent (l : AsyncLogger) (st : WriterState) : WriterEvent → WriterState
  | .enq line => enqueueRaw l st line
  | .tick => flushB st
  | .deliver => deliverOne l st

/-- A run of the pipeline from the freshly constructed writer. -/
def runEvents (l : AsyncLogger) (evs : List WriterEvent) : WriterState :=
  evs.foldl (stepEvent l) initWriter

/-! ### `ParseLevel` (part_001 lines 275-294)

`strings.ToLower` applies the Unicode simple lowercase mapping to each rune.
The embedding keeps every mapping that can land on an ASCII letter of a level
name: the 26 uppercase ASCII letters (code + 32) and U+0130 (LATIN CAPITAL
LETTER I WITH DOT ABOVE, which Go maps to plain `i`).  Every other uppercase
rune lowers to a non-ASCII rune, so for those the identity used here changes
neither any comparison with the ASCII level-name literals nor the result. -/

def goLowerChar (c : Char) : Char :=
  match c.toNat with
  | 65 => 'a' | 66 => 'b' | 67 => 'c' | 68 => 'd' | 69 => 'e' | 70 => 'f'
  | 71 => 'g' | 72 => 'h' | 73 => 'i' | 74 => 'j' | 75 => 'k' | 76 => 'l'
  | 77 => 'm' | 78 => 'n' | 79 => 'o' | 80 => 'p' | 81 => 'q' | 82 => 'r'
  | 83 => 's' | 84 => 't' | 85 => 'u' | 86 => 'v' | 87 => 'w' | 88 => 'x'
  | 89 => 'y' | 90 => 'z'
  | 304 => 'i'
  | _ => c

def goToLower (s : String) : String := String.mk (s.data.map goLowerChar)

/-- `ParseLevel` (part_001 lines 275-294): case-insensitive level-name lookup
defaulting to `InfoLevel`. -/
def ParseLevel (level : String) : Int :=
  let t := goToLower level
  if t = "debug" then debugLevel
  else if t = "info" then infoLevel
  else if t = "warn" ∨ t = "warning" then warnLevel
  else if t = "error" then errorLevel
  else if t = "dpanic" then dpanicLevel
  else if t = "panic" then panicLevel
  else if t = "fatal" then fatalLevel
  else infoLevel

/-- The names `ParseLevel`'s switch recognizes. -/
def recognizedLevelNames : List String :=
  ["debug", "info", "warn", "warning", "error", "dpanic", "panic", "fatal"]

/-! ### `generateTraceFlags` (part_001 lines 333-355)

The process-wide `requests` counter is an `atomic.Int64` starting at 0.  One
generation reads the counter, answers `"01"` exactly when its value modulo 100
(Go's truncated `%` on `int64`, `Int.tmod`) is zero, and the deferred
`requests.Add(1)` increments it once after the check. -/

def traceFlagsStep (c : Int) : String × Int :=
  (if Int.tmod c 100 = 0 then "01" else "00", c + 1)

/-- The flags produced by `n` sequential generations starting from counter
value `c`, in order. -/
def flagsFrom : Nat → Int → List String
  | 0, _ => []
  | n + 1, c => (traceFlagsStep c).1 :: flagsFrom n (traceFlagsStep c).2

/-- The counter value after `n` sequential generations from counter `c`. -/
def counterAfter : Nat → Int → Int
  | 0, c => c
  | n + 1, c => counterAfter n (traceFlagsStep c).2

/-! ### `TaskRepository.GetAll` (repository.go lines 70-101) and the query
parameters feeding it (part_002 lines 61-87 and 132-142) -/

structure GoTask where
  id : Int
  title : String
  status : String
  deriving DecidableEq, Repr

/-- The repository state guarded by the RWMutex: the three indexes and the id
counter.  Go maps are modelled as association lists; a missing key yields the
zero value (`nil` slice, `nil` pointer). -/
structure RepoState where
  tasksByID : List (Int × GoTask)
  tasksByStatus : List (String × List Int)
  allTasksIDs : List Int
  counter : Int
  deriving DecidableEq, Repr

inductive GetAllOutcome where
  | ok (tasks : List (Option GoTask))
  | sliceBoundsViolation (lo hi : Int) (len : Nat)
  deriving DecidableEq, Repr

/-- The id list `GetAll` selects (lines 77-83): the status index for a
non-empty filter (empty for an absent key), else all ids. -/
def selectedIDs (r : RepoState) (statusFilter : String) : List Int :=
  if statusFilter ≠ "" then (r.tasksByStatus.lookup statusFilter).getD []
  else r.allTasksIDs

/-- `TaskRepository.GetAll` (lines 70-101).  After the `offset >= len` guard,
`end` is clamped only from above and the code evaluates `taskIDs[offset:end]`;
Go panics at runtime unless `0 <= offset <= end` (`end <= len <= cap` holds by
the clamp), which the model records as `sliceBoundsViolation`. -/
def getAll (r : RepoState) (statusFilter : String) (limit offs : Int) :
    GetAllOutcome :=
  let taskIDs := selectedIDs r statusFilter
  if offs ≥ (taskIDs.length : Int) then .ok []
  else
    let end0 := offs + limit
    let endC := if end0 > (taskIDs.length : Int) then (taskIDs.length : Int) else end0
    if 0 ≤ offs ∧ offs ≤ endC then
      .ok (((taskIDs.drop offs.toNat).take (endC - offs).toNat).map
        (fun i => r.tasksByID.lookup i))
    else .sliceBoundsViolation offs endC taskIDs.length

/-- `strconv.Atoi` on a 64-bit platform: optional sign, at least one ASCII
digit, no other characters, result within the `int64` range. -/
def goAtoi (s : String) : Except String Int :=
  let core : Bool × List Char :=
    match s.data with
    | '-' :: rest => (true, rest)
    | '+' :: rest => (false, rest)
    | l => (false, l)
  let neg := core.1
  let digits := core.2
  if digits = [] then .error "invalid syntax"
  else if digits.all Char.isDigit then
    let n : Nat := digits.foldl (fun acc c => acc * 10 + (c.toNat - 48)) 0
    let v : Int := if neg then -(n : Int) else (n : Int)
    if v < -(2 ^ 63) ∨ v > 2 ^ 63 - 1 then .error "value out of range"
    else .ok v
  else .error "invalid syntax"

/-- `parseIntQueryParam` (part_002 lines 132-142) applied to the raw query
value (`""` when the parameter is absent): the default on an empty value,
otherwise exactly `strconv.Atoi`'s verdict. -/
def parseIntQueryParam (valStr : String) (defaultValue : Int) : Except String Int :=
  if valStr = "" then .ok defaultValue else goAtoi valStr

/-- Whether a `GetAll` outcome is the slice-bounds runtime fault. -/
def isSliceBoundsViolation : GetAllOutcome → Bool
  | .sliceBoundsViolation .. => true
  | _ => false

/-- Pipeline content invariant: the bytes flushed to the sink, the batch and
the queued lines together are exactly the accepted lines, in order. -/
def contentInv (st : WriterState) : Prop :=
  String.join st.sink ++ st.batch ++ String.join st.queue = String.join st.accepted

/-! ## Helper lemmas -/

lemma sJoin_cons (s : String) (l : List String) :
    String.join (s :: l) = s ++ String.join l := by
  apply String.ext
  simp [String.join_eq, String.data_append]

lemma sJoin_append (l1 l2 : List String) :
    String.join (l1 ++ l2) = String.join l1 ++ String.join l2 := by
  apply String.ext
  simp [String.join_eq, String.data_append]

lemma sJoin_singleton (s : String) : String.join [s] = s := by
  apply String.ext
  simp [String.join_eq]

lemma flushB_queue (st : WriterState) : (flushB st).queue = st.queue := by
  unfold flushB; split <;> rfl

lemma flushB_stderr (st : WriterState) : (flushB st).stderrLines = st.stderrLines := by
  unfold flushB; split <;> rfl

lemma flushB_accepted (st : WriterState) : (flushB st).accepted = st.accepted := by
  unfold flushB; split <;> rfl

lemma flushB_batch (st : WriterState) : (flushB st).batch = "" := by
  unfold flushB; split <;> simp_all

lemma flushB_sink (st : WriterState) :
    (flushB st).sink = st.sink ++ (if st.batch = "" then [] else [st.batch]) := by
  unfold flushB; split <;> simp [*]

lemma stepEvent_queue_le (l : AsyncLogger) (st : WriterState) (e : WriterEvent)
    (h : (st.queue.length : Int) ≤ chanCap l) :
    ((stepEvent l st e).queue.length : Int) ≤ chanCap l := by
  cases e with
  | enq line =>
      simp only [stepEvent, enqueueRaw]
      split
      · simp only [List.length_append, List.length_singleton]
        push_cast
        omega
      · exact h
  | tick => simpa [stepEvent, flushB_queue] using h
  | deliver =>
      simp only [stepEvent, deliverOne]
      match hq : st.queue with
      | [] => simpa [hq] using h
      | msg :: rest =>
          simp only []
          split
          · rw [flushB_queue]
            simp only [hq, List.length_cons] at h
            push_cast at h ⊢
            omega
          · simp only [hq, List.length_cons] at h
            push_cast at h ⊢
            omega

lemma contentInv_init : contentInv initWriter := rfl

lemma contentInv_flushB (st : WriterState) (h : contentInv st) : contentInv (flushB st) := by
  unfold contentInv flushB at *
  split
  · exact h
  · rw [sJoin_append, sJoin_singleton, ← h]
    simp [String.append_assoc]

lemma contentInv_step (l : AsyncLogger) (st : WriterState) (e : WriterEvent)
    (h : contentInv st) : contentInv (stepEvent l st e) := by
  cases e with
  | enq line =>
      simp only [stepEvent, enqueueRaw]
      split
      · unfold contentInv at *
        simp only [sJoin_append, sJoin_singleton, ← h]
        simp [String.append_assoc]
      · exact h
  | tick => exact contentInv_flushB st h
  | deliver =>
      simp only [stepEvent, deliverOne]
      match hq : st.queue with
      | [] => simpa [hq] using h
      | msg :: rest =>
          simp only []
          have h2 : contentInv { st with queue := rest, batch := st.batch ++ msg } := by
            unfold contentInv at *
            rw [hq, sJoin_cons] at h
            rw [← h]
            simp [String.append_assoc]
          split
          · exact contentInv_flushB _ h2
          · exact h2

lemma contentInv_run (l : AsyncLogger) (evs : List WriterEvent) :
    contentInv (runEvents l evs) := by
  have : ∀ st, contentInv st → contentInv (evs.foldl (stepEvent l) st) := by
    induction evs with
    | nil => exact fun st h => h
    | cons e rest ih => exact fun st h => ih _ (contentInv_step l st e h)
  exact this initWriter contentInv_init

lemma queue_le_run (l : AsyncLogger) (evs : List WriterEvent)
    (hcap : 0 ≤ chanCap l) :
    ((runEvents l evs).queue.length : Int) ≤ chanCap l := by
  have : ∀ st, (st.queue.length : Int) ≤ chanCap l →
      (((evs.foldl (stepEvent l) st).queue.length : Int)) ≤ chanCap l := by
    induction evs with
    | nil => exact fun st h => h
    | cons e rest ih => exact fun st h => ih _ (stepEvent_queue_le l st e h)
  exact this initWriter (by simpa [initWriter] using hcap)

lemma drainGo_eq (q : List String) :
    ∀ st, drainGo q st = flushB { st with batch := st.batch ++ String.join q } := by
  induction q with
  | nil =>
      intro st
      simp [drainGo, String.append_empty, show String.join ([] : List String) = "" from rfl]
  | cons m rest ih =>
      intro st
      rw [drainGo, ih]
      simp [sJoin_cons, String.append_assoc]

lemma bufferSize_pos (cfg : Config) (opts : List LoggerOption) :
    0 < (newAsyncLogger cfg opts).bufferSize := by
  unfold newAsyncLogger
  have : ∀ (l : AsyncLogger), 0 < l.bufferSize →
      0 < (opts.foldl applyOption l).bufferSize := by
    induction opts with
    | nil => exact fun l h => h
    | cons o rest ih =>
        intro l h
        refine ih _ ?_
        cases o with
        | withBufferSize size =>
            simp only [applyOption]
            split <;> simp_all
        | withFlushInterval interval =>
            simp only [applyOption]
            split <;> simp_all
  exact this _ (by norm_num)

lemma goLowerChar_fix (d : Char) (h1 : ¬(65 ≤ d.toNat ∧ d.toNat ≤ 90))
    (h2 : d.toNat ≠ 304) : goLowerChar d = d := by
  unfold goLowerChar
  split <;> first | rfl | omega

lemma goLowerChar_range (c : Char) :
    ¬(65 ≤ (goLowerChar c).toNat ∧ (goLowerChar c).toNat ≤ 90) ∧
      (goLowerChar c).toNat ≠ 304 := by
  unfold goLowerChar
  split <;> first | decide | (simp only [imp_false] at *; omega)

lemma goLowerChar_idem (c : Char) : goLowerChar (goLowerChar c) = goLowerChar c :=
  goLowerChar_fix _ (goLowerChar_range c).1 (goLowerChar_range c).2

lemma goToLower_idem (s : String) : goToLower (goToLower s) = goToLower s := by
  unfold goToLower
  simp only [List.map_map]
  congr 1
  refine List.map_congr_left fun a _ => ?_
  simp [Function.comp_apply, goLowerChar_idem]

lemma parseLevel_lower (s : String) : ParseLevel (goToLower s) = ParseLevel s := by
  unfold ParseLevel
  rw [goToLower_idem]

lemma parseLevel_default (s : String) (h : goToLower s ∉ recognizedLevelNames) :
    ParseLevel s = infoLevel := by
  simp only [recognizedLevelNames, List.mem_cons, List.mem_singleton, not_or] at h
  unfold ParseLevel
  obtain ⟨h1, h2, h3, h4, h5, h6, h7, h8⟩ := h
  simp [h1, h2, h3, h4, h5, h6, h7, h8]

lemma renderFields_even_append (l2 : List GoValue) :
    ∀ fs : List GoValue, fs.length % 2 = 0 →
      renderFields (fs ++ l2) = renderFields fs ++ renderFields l2 := by
  intro fs
  induction fs using renderFields.induct with
  | case1 => intro; simp [renderFields]
  | case2 k => intro h; simp at h
  | case3 k v rest ih =>
      intro h
      simp only [List.length_cons] at h
      have hrest : rest.length % 2 = 0 := by omega
      simp only [List.cons_append, renderFields, List.append_eq]
      rw [ih hrest]
      simp [String.append_assoc]

lemma flagsFrom_add : ∀ (m n : Nat) (c : Int),
    flagsFrom (m + n) c = flagsFrom m c ++ flagsFrom n (c + m) := by
  intro m
  induction m with
  | zero => intro n c; simp [flagsFrom]
  | succ k ih =>
      intro n c
      have : k + 1 + n = (k + n) + 1 := by omega
      rw [this]
      simp only [flagsFrom, traceFlagsStep]
      rw [ih n (c + 1)]
      have : c + 1 + (k : Int) = c + ((k : Nat) + 1 : Nat) := by push_cast; ring
      rw [this]
      simp

lemma counterAfter_eq : ∀ (n : Nat) (c : Int), counterAfter n c = c + n := by
  intro n
  induction n with
  | zero => intro c; simp [counterAfter]
  | succ k ih =>
      intro c
      simp only [counterAfter, traceFlagsStep]
      rw [ih (c + 1)]
      push_cast
      ring

lemma flagsFrom_getD : ∀ (n : Nat) (c : Int) (i : Nat), i < n →
    (flagsFrom n c).getD i "" =
      if Int.tmod (c + i) 100 = 0 then "01" else "00" := by
  intro n
  induction n with
  | zero => intro c i h; omega
  | succ m ih =>
      intro c i h
      cases i with
      | zero => simp [flagsFrom, traceFlagsStep]
      | succ j =>
          have hj : j < m := by omega
          simp only [flagsFrom, traceFlagsStep, List.getD_cons_succ]
          rw [ih (c + 1) j hj]
          have : c + 1 + (j : Int) = c + ((j : Nat) + 1 : Nat) := by push_cast; ring
          rw [this]

lemma tmod_hundred_cast (i : Nat) :
    Int.tmod ((0 : Int) + i) 100 = 0 ↔ i % 100 = 0 := by
  rw [Int.zero_add]
  rw [show ((100 : Int)) = ((100 : Nat) : Int) from rfl, ← Int.ofNat_tmod]
  omega

lemma getAll_neg_offset (r : RepoState) (status : String) (limit offs : Int)
    (h : offs < 0) : isSliceBoundsViolation (getAll r status limit offs) = true := by
  unfold getAll
  have hlen : ¬ offs ≥ ((selectedIDs r status).length : Int) := by
    omega
  rw [if_neg hlen]
  simp only []
  rw [if_neg (by omega)]
  rfl

lemma getAll_neg_limit (r : RepoState) (status : String) (limit offs : Int)
    (hlim : limit < 0) (_h0 : 0 ≤ offs)
    (hlt : offs < ((selectedIDs r status).length : Int)) :
    isSliceBoundsViolation (getAll r status limit offs) = true := by
  unfold getAll
  rw [if_neg (by omega)]
  simp only []
  have hc : ¬ (0 ≤ offs ∧ offs ≤
      (if offs + limit > ((selectedIDs r status).length : Int)
        then ((selectedIDs r status).length : Int) else offs + limit)) := by
    split <;> omega
  rw [if_neg hc]
  rfl

/-- Threshold gate of one leveled emit method: the method's result is
`if l.cfg.level ≤ thr then logM l st lvl ts msg fields else st`; with free
channel space it enqueues exactly the encoded line iff the threshold allows,
and is a no-op otherwise. -/
lemma gate_aux (l : AsyncLogger) (st : WriterState) (ts msg : String)
    (fields : List GoValue) (lvl : String) (thr : Int)
    (hspace : (st.queue.length : Int) < chanCap l) :
    ((if l.cfg.level ≤ thr then logM l st lvl ts msg fields else st).queue =
        st.queue ++ [encodeLine ts lvl msg (allFieldsOf l fields)] ↔ l.cfg.level ≤ thr) ∧
    (¬ l.cfg.level ≤ thr → (if l.cfg.level ≤ thr then logM l st lvl ts msg fields else st) = st) := by
  by_cases hc : l.cfg.level ≤ thr
  · rw [if_pos hc]
    constructor
    · refine ⟨fun _ => hc, fun _ => ?_⟩
      unfold logM enqueueRaw
      rw [if_pos hspace]
      rfl
    · exact fun hn => absurd hc hn
  · rw [if_neg hc]
    refine ⟨⟨fun habs => ?_, fun habs => absurd habs hc⟩, fun _ => rfl⟩
    exact absurd habs (by simp)

/-! ## Claim theorems -/

/-- C1, counterexample: with configured queue capacity 1 (`WithBufferSize(1)`),
two enqueues with no consumption are BOTH accepted (the channel is created with
capacity `bufferSize+1`), so two records are pending — more than the configured
capacity — and no drop diagnostic is produced.  This refutes the claim that an
enqueue arriving when C records are already pending is rejected. -/
theorem capacity_one_holds_two_records :
    (newAsyncLogger { level := 0, isProduction := false }
      [LoggerOption.withBufferSize 1]).bufferSize = 1 ∧
    (runEvents (newAsyncLogger { level := 0, isProduction := false }
        [LoggerOption.withBufferSize 1])
      [WriterEvent.enq "a\n", WriterEvent.enq "b\n"]).queue = ["a\n", "b\n"] ∧
    (runEvents (newAsyncLogger { level := 0, isProduction := false }
        [LoggerOption.withBufferSize 1])
      [WriterEvent.enq "a\n", WriterEvent.enq "b\n"]).stderrLines = [] := by
  refine ⟨rfl, ?_, ?_⟩ <;> decide

/-- C1, amended: for every AsyncWriter constructed with configured capacity C
(the positive option value, else the default 4096), the number of
enqueued-but-unconsumed records never exceeds C+1 — the capacity the code
actually gives the channel — and an enqueue arriving when C+1 records are
pending is rejected and dropped with a stderr diagnostic, never queued. -/
theorem queue_bounded_by_capacity_plus_one (cfg : Config) (opts : List LoggerOption)
    (evs : List WriterEvent) :
    ((runEvents (newAsyncLogger cfg opts) evs).queue.length : Int) ≤
      (newAsyncLogger cfg opts).bufferSize + 1 ∧
    (∀ (st : WriterState) (line : String),
      (st.queue.length : Int) = (newAsyncLogger cfg opts).bufferSize + 1 →
      (enqueueRaw (newAsyncLogger cfg opts) st line).queue = st.queue ∧
      (enqueueRaw (newAsyncLogger cfg opts) st line).stderrLines =
        st.stderrLines ++ [dropDiagnostic line]) := by
  constructor
  · have hpos := bufferSize_pos cfg opts
    have := queue_le_run (newAsyncLogger cfg opts) evs (by unfold chanCap; omega)
    unfold chanCap at this
    exact this
  · intro st line h
    unfold enqueueRaw
    rw [if_neg (by unfold chanCap; omega)]
    exact ⟨rfl, rfl⟩

/-- C1, witness for the amended claim at capacity C = 1: with C+1 = 2 records
pending, the next enqueue leaves the queue unchanged. -/
theorem queue_bounded_by_capacity_plus_one_witness :
    (enqueueRaw (newAsyncLogger { level := 0, isProduction := false }
        [LoggerOption.withBufferSize 1])
      { queue := ["a\n", "b\n"], batch := "", sink := [], stderrLines := [],
        accepted := ["a\n", "b\n"] } "c\n").queue = ["a\n", "b\n"] :=
  ((queue_bounded_by_capacity_plus_one { level := 0, isProduction := false }
      [LoggerOption.withBufferSize 1] []).2
    { queue := ["a\n", "b\n"], batch := "", sink := [], stderrLines := [],
      accepted := ["a\n", "b\n"] } "c\n" (by decide)).1

/-- C2: after the cancellation signal, the worker receives every record still
in the queue, appends each to the batch, performs exactly one final flush (one
sink write when there is anything to write), and terminates with an empty
queue and batch; consequently the sink output equals the concatenation, in
FIFO enqueue order, of exactly the records accepted at enqueue — every record
enqueued before cancellation and not dropped appears exactly once. -/
theorem drain_completeness (cfg : Config) (opts : List LoggerOption)
    (evs : List WriterEvent) :
    (drainAll (runEvents (newAsyncLogger cfg opts) evs)).queue = [] ∧
    (drainAll (runEvents (newAsyncLogger cfg opts) evs)).batch = "" ∧
    (drainAll (runEvents (newAsyncLogger cfg opts) evs)).sink =
      (runEvents (newAsyncLogger cfg opts) evs).sink ++
        (if (runEvents (newAsyncLogger cfg opts) evs).batch ++
            String.join (runEvents (newAsyncLogger cfg opts) evs).queue = "" then []
         else [(runEvents (newAsyncLogger cfg opts) evs).batch ++
            String.join (runEvents (newAsyncLogger cfg opts) evs).queue]) ∧
    String.join (drainAll (runEvents (newAsyncLogger cfg opts) evs)).sink =
      String.join (runEvents (newAsyncLogger cfg opts) evs).accepted := by
  have hinv := contentInv_run (newAsyncLogger cfg opts) evs
  set st := runEvents (newAsyncLogger cfg opts) evs with hst
  have hdrain : drainAll st = flushB { st with queue := [], batch := st.batch ++ String.join st.queue } := by
    unfold drainAll
    rw [drainGo_eq]
  refine ⟨?_, ?_, ?_, ?_⟩
  · rw [hdrain, flushB_queue]
  · rw [hdrain, flushB_batch]
  · rw [hdrain, flushB_sink]
  · rw [hdrain]
    unfold contentInv at hinv
    unfold flushB
    split
    · rename_i hempty
      show String.join st.sink = String.join st.accepted
      have hb : st.batch ++ String.join st.queue = "" := hempty
      rw [← hinv, String.append_assoc, hb, String.append_empty]
    · show String.join (st.sink ++ [st.batch ++ String.join st.queue]) =
        String.join st.accepted
      rw [sJoin_append, sJoin_singleton, ← hinv]
      simp [String.append_assoc]

/-- C3: the enqueue step of `log` never blocks and never returns an error —
it is a total function of the state.  With free space the encoded line is
queued; with the channel full the line is not queued and the diagnostic
`WARNING: Logger channel is full. Log message dropped: <line>` is written to
the standard error stream, with no retry. -/
theorem enqueue_never_blocks_never_errors (l : AsyncLogger) (st : WriterState)
    (level ts msg : String) (fields : List GoValue) :
    ((st.queue.length : Int) < l.bufferSize + 1 →
      logM l st level ts msg fields =
        { st with
            queue := st.queue ++ [encodeLine ts level msg (l.contextFields ++ fields)],
            accepted := st.accepted ++ [encodeLine ts level msg (l.contextFields ++ fields)] }) ∧
    ((l.bufferSize + 1 : Int) ≤ (st.queue.length : Int) →
      logM l st level ts msg fields =
        { st with stderrLines := st.stderrLines ++
            ["WARNING: Logger channel is full. Log message dropped: " ++
              encodeLine ts level msg (l.contextFields ++ fields) ++ "\n"] }) := by
  unfold logM enqueueRaw chanCap dropDiagnostic
  constructor
  · intro h
    rw [if_pos (by omega)]
  · intro h
    rw [if_neg (by omega)]

/-- C3, witness: a concrete full channel (capacity 1+1 = 2, two records
pending) drops the line and prints the diagnostic. -/
theorem enqueue_never_blocks_never_errors_witness :
    logM (newAsyncLogger { level := 0, isProduction := false }
        [LoggerOption.withBufferSize 1])
      { queue := ["a\n", "b\n"], batch := "", sink := [], stderrLines := [],
        accepted := ["a\n", "b\n"] } "INFO" "t" "m" [] =
    { queue := ["a\n", "b\n"], batch := "", sink := [],
      stderrLines := ["WARNING: Logger channel is full. Log message dropped: " ++
        encodeLine "t" "INFO" "m" [] ++ "\n"],
      accepted := ["a\n", "b\n"] } :=
  (enqueue_never_blocks_never_errors
    (newAsyncLogger { level := 0, isProduction := false } [LoggerOption.withBufferSize 1])
    { queue := ["a\n", "b\n"], batch := "", sink := [], stderrLines := [],
      accepted := ["a\n", "b\n"] } "INFO" "t" "m" []).2 (by decide)

/-- C4, counterexample: at configured threshold Fatal, calling Panic neither
emits a record nor raises a panic — the `panic(msg)` sits inside the
`Level <= PanicLevel` guard — refuting the claim that Panic emits and then
unconditionally panics for every configured threshold including Fatal. -/
theorem panic_noop_at_fatal_threshold :
    panicM { cfg := { level := fatalLevel, isProduction := false }, writerId := 0,
             bufferSize := 4096, flushInterval := 100000000, contextFields := [] }
      initWriter "t" "m" [] = { state := initWriter, panics := none } := by
  decide

/-- C4, amended: for every configured threshold T ≤ Panic, calling Panic emits
the record and then raises a panic carrying the message; for every threshold
above Panic (i.e. Fatal), the call is a complete no-op: no emit, no panic. -/
theorem panic_guarded_by_level (l : AsyncLogger) (st : WriterState)
    (ts msg : String) (fields : List GoValue) :
    (l.cfg.level ≤ panicLevel →
      panicM l st ts msg fields =
        { state := logM l st "PANIC" ts msg fields, panics := some msg }) ∧
    (panicLevel < l.cfg.level →
      panicM l st ts msg fields = { state := st, panics := none }) := by
  unfold panicM
  constructor
  · intro h
    rw [if_pos h]
  · intro h
    rw [if_neg (by omega)]

/-- C4, witness: at threshold Info, Panic emits and panics with the message. -/
theorem panic_guarded_by_level_witness :
    panicM (newAsyncLogger { level := 0, isProduction := false } []) initWriter
      "t" "m" [] =
    { state := logM (newAsyncLogger { level := 0, isProduction := false } [])
        initWriter "PANIC" "t" "m" [], panics := some "m" } :=
  (panic_guarded_by_level (newAsyncLogger { level := 0, isProduction := false } [])
    initWriter "t" "m" []).1 (by decide)

/-- C5: with free channel space, a leveled emit at severity s constructs and
enqueues exactly one record iff the configured threshold T satisfies T ≤ s,
and is a complete no-op otherwise; in particular at threshold Warn, Debug and
Info calls leave the state unchanged while Warn and Error calls each enqueue
one encoded line. -/
theorem leveled_emit_threshold_gate (l : AsyncLogger) (st : WriterState)
    (ts msg : String) (fields : List GoValue)
    (hspace : (st.queue.length : Int) < chanCap l) :
    ((debugM l st ts msg fields).queue =
        st.queue ++ [encodeLine ts "DEBUG" msg (allFieldsOf l fields)] ↔
      l.cfg.level ≤ debugLevel) ∧
    (¬ l.cfg.level ≤ debugLevel → debugM l st ts msg fields = st) ∧
    ((infoM l st ts msg fields).queue =
        st.queue ++ [encodeLine ts "INFO" msg (allFieldsOf l fields)] ↔
      l.cfg.level ≤ infoLevel) ∧
    (¬ l.cfg.level ≤ infoLevel → infoM l st ts msg fields = st) ∧
    ((warnM l st ts msg fields).queue =
        st.queue ++ [encodeLine ts "WARN" msg (allFieldsOf l fields)] ↔
      l.cfg.level ≤ warnLevel) ∧
    (¬ l.cfg.level ≤ warnLevel → warnM l st ts msg fields = st) ∧
    ((errorM l st ts msg fields).queue =
        st.queue ++ [encodeLine ts "ERROR" msg (allFieldsOf l fields)] ↔
      l.cfg.level ≤ errorLevel) ∧
    (¬ l.cfg.level ≤ errorLevel → errorM l st ts msg fields = st) ∧
    (l.cfg.level = warnLevel →
      debugM l st ts msg fields = st ∧ infoM l st ts msg fields = st ∧
      (warnM l st ts msg fields).queue =
        st.queue ++ [encodeLine ts "WARN" msg (allFieldsOf l fields)] ∧
      (errorM l st ts msg fields).queue =
        st.queue ++ [encodeLine ts "ERROR" msg (allFieldsOf l fields)]) := by
  have hd := gate_aux l st ts msg fields "DEBUG" debugLevel hspace
  have hi := gate_aux l st ts msg fields "INFO" infoLevel hspace
  have hw := gate_aux l st ts msg fields "WARN" warnLevel hspace
  have he := gate_aux l st ts msg fields "ERROR" errorLevel hspace
  refine ⟨hd.1, hd.2, hi.1, hi.2, hw.1, hw.2, he.1, he.2, fun hl => ?_⟩
  refine ⟨hd.2 (by rw [hl]; decide), hi.2 (by rw [hl]; decide),
    hw.1.mpr (by rw [hl]), he.1.mpr (by rw [hl]; decide)⟩

/-- C5, witness at threshold Warn: Debug is a no-op and Warn enqueues its
encoded line. -/
theorem leveled_emit_threshold_gate_witness :
    debugM (newAsyncLogger { level := warnLevel, isProduction := false } [])
      initWriter "t" "m" [] = initWriter ∧
    (warnM (newAsyncLogger { level := warnLevel, isProduction := false } [])
        initWriter "t" "m" []).queue =
      initWriter.queue ++ [encodeLine "t" "WARN" "m"
        (allFieldsOf (newAsyncLogger { level := warnLevel, isProduction := false } []) [])] := by
  have h := (leveled_emit_threshold_gate
    (newAsyncLogger { level := warnLevel, isProduction := false } [])
    initWriter "t" "m" [] (by decide)).2.2.2.2.2.2.2.2 rfl
  exact ⟨h.1, h.2.2.1⟩

/-- C6: `With(fields...)` returns a new logger with the same configuration and
writer reference whose context-field list is the parent's list with the new
fields appended, leaving the parent's list unchanged; `l.With(a,b).With(c,d)`
emits records whose field list contains a, b, c, d in that order, while a
record emitted through `l.With(a,b)` contains neither c nor d (when c and d
occur in neither the parent context, the first derivation, nor the call-site
fields). -/
theorem with_copies_and_appends (l : AsyncLogger) (a b c d : GoValue)
    (fs : List GoValue) :
    (withFields (withFields l [a, b]) [c, d]).cfg = l.cfg ∧
    (withFields (withFields l [a, b]) [c, d]).writerId = l.writerId ∧
    (withFields l [a, b]).contextFields = l.contextFields ++ [a, b] ∧
    (withFields (withFields l [a, b]) [c, d]).contextFields =
      l.contextFields ++ [a, b, c, d] ∧
    allFieldsOf (withFields (withFields l [a, b]) [c, d]) fs =
      l.contextFields ++ [a, b, c, d] ++ fs ∧
    List.Sublist [a, b, c, d] (allFieldsOf (withFields (withFields l [a, b]) [c, d]) fs) ∧
    (c ∉ l.contextFields → c ≠ a → c ≠ b → c ∉ fs →
      c ∉ allFieldsOf (withFields l [a, b]) fs) ∧
    (d ∉ l.contextFields → d ≠ a → d ≠ b → d ∉ fs →
      d ∉ allFieldsOf (withFields l [a, b]) fs) := by
  refine ⟨rfl, rfl, rfl, by simp [withFields], by simp [withFields, allFieldsOf], ?_, ?_, ?_⟩
  · show List.Sublist [a, b, c, d] ((l.contextFields ++ [a, b]) ++ [c, d] ++ fs)
    have h1 : List.Sublist [a, b, c, d] ([a, b, c, d] ++ fs) :=
      List.sublist_append_left [a, b, c, d] fs
    have h2 : List.Sublist ([a, b, c, d] ++ fs) (l.contextFields ++ ([a, b, c, d] ++ fs)) :=
      List.sublist_append_right l.contextFields ([a, b, c, d] ++ fs)
    have h3 := h1.trans h2
    simp only [List.append_assoc]
    exact h3
  · intro h1 h2 h3 h4
    simp only [allFieldsOf, withFields, List.mem_append, List.mem_cons,
      List.not_mem_nil, or_false, not_or]
    exact ⟨⟨h1, h2, h3⟩, h4⟩
  · intro h1 h2 h3 h4
    simp only [allFieldsOf, withFields, List.mem_append, List.mem_cons,
      List.not_mem_nil, or_false, not_or]
    exact ⟨⟨h1, h2, h3⟩, h4⟩

/-- C6, witness: concrete derivation chain with fresh field values. -/
theorem with_copies_and_appends_witness :
    (withFields (withFields (newAsyncLogger { level := 0, isProduction := false } [])
        [GoValue.VString "a", GoValue.VString "1"])
      [GoValue.VString "c", GoValue.VString "2"]).contextFields =
      [GoValue.VString "a", GoValue.VString "1", GoValue.VString "c", GoValue.VString "2"] ∧
    GoValue.VString "c" ∉ allFieldsOf (withFields
      (newAsyncLogger { level := 0, isProduction := false } [])
      [GoValue.VString "a", GoValue.VString "1"]) [] := by
  have h := with_copies_and_appends (newAsyncLogger { level := 0, isProduction := false } [])
    (GoValue.VString "a") (GoValue.VString "1") (GoValue.VString "c") (GoValue.VString "2") []
  exact ⟨h.2.2.2.1, h.2.2.2.2.2.2.1 (by decide) (by decide) (by decide) (by decide)⟩

/-- C7, counterexample: with the odd-length field list `["k"]` the trailing
string element is NOT dropped — it is rendered as a key with an empty value,
so `k=` appears in the encoded line (compare the line encoded with no
fields). -/
theorem odd_trailing_element_rendered :
    encodeLine "2025-01-01T00:00:00Z" "INFO" "m" [GoValue.VString "k"] =
      "2025-01-01T00:00:00Z INFO m k=\n" ∧
    encodeLine "2025-01-01T00:00:00Z" "INFO" "m" [] = "2025-01-01T00:00:00Z INFO m\n" ∧
    List.Sublist "k=".data
      (encodeLine "2025-01-01T00:00:00Z" "INFO" "m" [GoValue.VString "k"]).data := by
  refine ⟨?_, ?_, ?_⟩ <;> decide

/-- C7, amended: when the combined key/value list has odd length, the trailing
element is treated as a key: a trailing string k is rendered as `k=` with an
empty value (it does appear in the line), while a trailing non-string
contributes only its separator space; and any pair whose key is not a string
is skipped — neither the key nor its value is rendered, only the separator
space remains. -/
theorem field_rendering_odd_trailing_and_nonstring_keys :
    (∀ (fs : List GoValue) (k : String), fs.length % 2 = 0 →
      renderFields (fs ++ [GoValue.VString k]) = renderFields fs ++ " " ++ k ++ "=") ∧
    (∀ (fs : List GoValue) (kv : GoValue), fs.length % 2 = 0 →
      (∀ s, kv ≠ GoValue.VString s) →
      renderFields (fs ++ [kv]) = renderFields fs ++ " ") ∧
    (∀ (kv v : GoValue) (rest : List GoValue), (∀ s, kv ≠ GoValue.VString s) →
      renderFields (kv :: v :: rest) = " " ++ renderFields rest) := by
  refine ⟨?_, ?_, ?_⟩
  · intro fs k h
    rw [renderFields_even_append _ fs h]
    simp [renderFields, keyPart, String.append_assoc]
  · intro fs kv h hns
    rw [renderFields_even_append _ fs h]
    cases kv <;> first
      | exact absurd rfl (hns _)
      | simp [renderFields, keyPart, String.append_empty]
  · intro kv v rest hns
    cases kv <;> first
      | exact absurd rfl (hns _)
      | simp [renderFields, keyPart, String.empty_append]

/-- C7, witness: concrete instances of the amended rendering equations. -/
theorem field_rendering_odd_trailing_and_nonstring_keys_witness :
    renderFields [GoValue.VString "a", GoValue.VInt 1, GoValue.VString "k"] =
      renderFields [GoValue.VString "a", GoValue.VInt 1] ++ " " ++ "k" ++ "=" ∧
    renderFields [GoValue.VInt 7, GoValue.VString "v", GoValue.VString "a", GoValue.VInt 1] =
      " " ++ renderFields [GoValue.VString "a", GoValue.VInt 1] := by
  refine ⟨?_, ?_⟩
  · exact field_rendering_odd_trailing_and_nonstring_keys.1
      [GoValue.VString "a", GoValue.VInt 1] "k" (by decide)
  · exact field_rendering_odd_trailing_and_nonstring_keys.2.2
      (GoValue.VInt 7) (GoValue.VString "v") [GoValue.VString "a", GoValue.VInt 1]
      (fun s => by simp)

/-- C8: under sequential generation from a fresh counter, a correlation
token's sampling flag is `"01"` exactly when the counter value at the moment
of the check is divisible by 100, the counter is incremented exactly once per
generation after the check (after 1000 generations it is 1000), and over 1000
sequential generations the flag is sampled on exactly the generations whose
0-based index is a multiple of 100 — 10 of them. -/
theorem trace_sampling_every_hundredth :
    (∀ i : Nat, i < 1000 → ((flagsFrom 1000 0).getD i "" = "01" ↔ i % 100 = 0)) ∧
    (flagsFrom 1000 0).count "01" = 10 ∧
    counterAfter 1000 0 = 1000 := by
  refine ⟨?_, ?_, ?_⟩
  · intro i hi
    rw [flagsFrom_getD 1000 0 i hi]
    by_cases h : Int.tmod ((0 : Int) + i) 100 = 0
    · rw [if_pos h]
      simp [(tmod_hundred_cast i).mp h]
    · simp only [if_neg h]
      constructor
      · intro habs
        exact absurd habs (by decide)
      · intro hmod
        exact absurd ((tmod_hundred_cast i).mpr hmod) h
  · rw [show (1000 : Nat) =
        100 + (100 + (100 + (100 + (100 + (100 + (100 + (100 + (100 + 100))))))))
      from rfl]
    rw [flagsFrom_add, flagsFrom_add, flagsFrom_add, flagsFrom_add, flagsFrom_add,
      flagsFrom_add, flagsFrom_add, flagsFrom_add, flagsFrom_add]
    simp only [List.count_append]
    norm_num
    decide
  · rw [counterAfter_eq]
    norm_num

/-- C8, witness: the 100th generation (0-based index 100) is sampled. -/
theorem trace_sampling_every_hundredth_witness :
    (flagsFrom 1000 0).getD 100 "" = "01" :=
  (trace_sampling_every_hundredth.1 100 (by decide)).mpr (by decide)

/-- C9: `ParseLevel` is total (a plain function into severities, no error) and
case-insensitive — it agrees with itself on the lowercased input for every
string; the recognized level names map to their severities, and every input
whose lowercase form is not a recognized name maps to Info. -/
theorem parseLevel_case_insensitive_total_default :
    (∀ s : String, ParseLevel s = ParseLevel (goToLower s)) ∧
    (∀ s : String, goToLower s ∉ recognizedLevelNames → ParseLevel s = infoLevel) ∧
    ParseLevel "Debug" = debugLevel ∧ ParseLevel "INFO" = infoLevel ∧
    ParseLevel "warn" = warnLevel ∧ ParseLevel "WARNING" = warnLevel ∧
    ParseLevel "Error" = errorLevel ∧ ParseLevel "dPanic" = dpanicLevel ∧
    ParseLevel "PANIC" = panicLevel ∧ ParseLevel "Fatal" = fatalLevel := by
  refine ⟨fun s => (parseLevel_lower s).symm, parseLevel_default,
    ?_, ?_, ?_, ?_, ?_, ?_, ?_, ?_⟩ <;> decide

/-- C9, witness: an unrecognized name maps to Info, and a mixed-case
recognized name agrees with its lowercase form. -/
theorem parseLevel_case_insensitive_total_default_witness :
    ParseLevel "unrecognized-level" = infoLevel :=
  parseLevel_case_insensitive_total_default.2.1 "unrecognized-level" (by decide)

/-- C10: `GetAll` guards the offset only against the upper bound.  A negative
offset always reaches the slice expression `taskIDs[offset:end]` with
out-of-range bounds (a runtime slice-bounds fault), for every repository
state; a negative limit (so that offset+limit is below offset) does so
whenever the `offset >= len` guard does not short-circuit, i.e. for every
non-negative offset below the selected id-list length; and such inputs are
reachable from the HTTP query parameters, since `parseIntQueryParam` accepts
`"-1"` as the integer -1 with no error. -/
theorem getAll_unguarded_bounds_reachable :
    parseIntQueryParam "-1" 0 = Except.ok (-1) ∧
    (∀ (r : RepoState) (status : String) (limit offs : Int), offs < 0 →
      isSliceBoundsViolation (getAll r status limit offs) = true) ∧
    (∀ (r : RepoState) (status : String) (limit offs : Int), limit < 0 →
      0 ≤ offs → offs < ((selectedIDs r status).length : Int) →
      isSliceBoundsViolation (getAll r status limit offs) = true) := by
  exact ⟨rfl, getAll_neg_offset, getAll_neg_limit⟩

/-- C10, witness: on a repository holding one task, `offset = -1` (with the
default limit 10) and `limit = -1, offset = 0` both hit the slice-bounds
fault. -/
theorem getAll_unguarded_bounds_reachable_witness :
    isSliceBoundsViolation (getAll
      { tasksByID := [(1, { id := 1, title := "t", status := "new" })],
        tasksByStatus := [("new", [1])], allTasksIDs := [1], counter := 1 }
      "" 10 (-1)) = true ∧
    isSliceBoundsViolation (getAll
      { tasksByID := [(1, { id := 1, title := "t", status := "new" })],
        tasksByStatus := [("new", [1])], allTasksIDs := [1], counter := 1 }
      "" (-1) 0) = true :=
  ⟨getAll_unguarded_bounds_reachable.2.1
      { tasksByID := [(1, { id := 1, title := "t", status := "new" })],
        tasksByStatus := [("new", [1])], allTasksIDs := [1], counter := 1 }
      "" 10 (-1) (by decide),
   getAll_unguarded_bounds_reachable.2.2
      { tasksByID := [(1, { id := 1, title := "t", status := "new" })],
        tasksByStatus := [("new", [1])], allTasksIDs := [1], counter := 1 }
      "" (-1) 0 (by decide) (by decide) (by decide)⟩

end TaskLogger
